import Mathlib

/-!
Verification of the segmentation-and-consolidation core of the invoice
extractor (`src/invoice_extraction/core/processor.py`, class `InvoiceSplitter`).

The Python code is shallowly embedded: scalar JSON values that the code
manipulates only through Python truthiness, equality and assignment are
modelled by `PyVal`; the classifier ("oracle") response schema of
`analyze_and_extract_invoice` is `WindowResult`; the in-memory session state
of `process_pdf` (`invoice_data_list`, `session_invoices`) is `SegState`.
Numeric JSON values are carried as `Int` (the code performs no arithmetic on
them, only truthiness tests and equality), and the classifier confidence as
`Rat`.
-/

namespace InvoiceExtraction

/-- A scalar Python/JSON value as the processor handles it: `None`, a string,
or a number.  Python truthiness over these three shapes is what
`merge_invoice_data` and the session logic branch on. -/
inductive PyVal where
  | none : PyVal
  | str (s : String) : PyVal
  | num (n : Int) : PyVal
deriving DecidableEq, Repr

/-- Python truthiness of a scalar value: `None`, `""` and `0` are falsy. -/
def truthy : PyVal → Bool
  | PyVal.none => false
  | PyVal.str s => !(s = "")
  | PyVal.num n => !(n = 0)

/-- One line item, per the extraction schema in
`analyze_and_extract_invoice`'s prompt. -/
structure LineItem where
  item_name : String
  quantity : Option Int
  unit_price : Option Int
  total_price : Option Int
deriving DecidableEq, Repr

/-- The `invoice_data` dictionary built in `process_pdf` (lines 950-964):
the thirteen extracted scalar fields, the line items, and the
`attachment_id` the code adds. -/
structure InvoiceData where
  invoice_number : PyVal
  customer_name : PyVal
  vendor_name : PyVal
  vendor_address : PyVal
  vendor_phone : PyVal
  vendor_email : PyVal
  invoice_date : PyVal
  due_date : PyVal
  total_amount : PyVal
  currency : PyVal
  total_tax : PyVal
  description : PyVal
  line_items : List LineItem
  attachment_id : Int
deriving DecidableEq, Repr

/-- The parsed response of one oracle call
(`analyze_and_extract_invoice`): boundary flags, the extracted fields,
confidence and reasoning. -/
structure WindowResult where
  is_complete_invoice : Bool
  is_invoice_start : Bool
  has_continuation : Bool
  invoice_number : PyVal
  customer_name : PyVal
  vendor_name : PyVal
  vendor_address : PyVal
  vendor_phone : PyVal
  vendor_email : PyVal
  invoice_date : PyVal
  due_date : PyVal
  total_amount : PyVal
  currency : PyVal
  total_tax : PyVal
  description : PyVal
  line_items : List LineItem
  confidence : Rat
  reasoning : String
deriving DecidableEq, Repr

/-- The neutral default the code substitutes when the vision call raises
(processor.py lines 448-470): `is_complete_invoice` and `is_invoice_start`
true, no continuation, all fields null, empty line items, confidence `0.0`,
reasoning `"API error: " ++ the error text`. -/
def fallbackResult (errMsg : String) : WindowResult :=
  { is_complete_invoice := true
    is_invoice_start := true
    has_continuation := false
    invoice_number := PyVal.none
    customer_name := PyVal.none
    vendor_name := PyVal.none
    vendor_address := PyVal.none
    vendor_phone := PyVal.none
    vendor_email := PyVal.none
    invoice_date := PyVal.none
    due_date := PyVal.none
    total_amount := PyVal.none
    currency := PyVal.none
    total_tax := PyVal.none
    description := PyVal.none
    line_items := []
    confidence := 0
    reasoning := "API error: " ++ errMsg }

/-- `analyze_and_extract_invoice`: a successful call returns the parsed
result; an erroring call is replaced by `fallbackResult`. -/
def analyze_and_extract_invoice : Except String WindowResult → WindowResult
  | Except.ok r => r
  | Except.error e => fallbackResult e

/-- Turn a raw (possibly erroring) oracle, indexed by window start and size,
into the total result function the segmentation loop consumes. -/
def oracleOf (raw : Nat → Nat → Except String WindowResult) :
    Nat → Nat → WindowResult :=
  fun i size => analyze_and_extract_invoice (raw i size)

/-- The `invoice_data` dictionary `process_pdf` builds from an accepted
window's result (lines 950-965). -/
def buildInvoiceData (r : WindowResult) (attachment_id : Int) : InvoiceData :=
  { invoice_number := r.invoice_number
    customer_name := r.customer_name
    vendor_name := r.vendor_name
    vendor_address := r.vendor_address
    vendor_phone := r.vendor_phone
    vendor_email := r.vendor_email
    invoice_date := r.invoice_date
    due_date := r.due_date
    total_amount := r.total_amount
    currency := r.currency
    total_tax := r.total_tax
    description := r.description
    line_items := r.line_items
    attachment_id := attachment_id }

/-- One scalar field of `merge_invoice_data` (lines 757-765): the new value
is taken only when the existing one is falsy and the new one is truthy. -/
def mergeField (existing_value new_value : PyVal) : PyVal :=
  if !truthy existing_value && truthy new_value then new_value
  else existing_value

/-- `merge_invoice_data` (processor.py lines 738-767): line items of the new
record are appended after the existing ones (mirroring the two emptiness
branches of the source); every scalar field follows first-truthy-wins. -/
def merge_invoice_data (existing_data new_data : InvoiceData) : InvoiceData :=
  let merged_line_items :=
    if new_data.line_items.isEmpty then
      existing_data.line_items
    else
      (if existing_data.line_items.isEmpty then []
       else existing_data.line_items) ++ new_data.line_items
  { invoice_number := mergeField existing_data.invoice_number new_data.invoice_number
    customer_name := mergeField existing_data.customer_name new_data.customer_name
    vendor_name := mergeField existing_data.vendor_name new_data.vendor_name
    vendor_address := mergeField existing_data.vendor_address new_data.vendor_address
    vendor_phone := mergeField existing_data.vendor_phone new_data.vendor_phone
    vendor_email := mergeField existing_data.vendor_email new_data.vendor_email
    invoice_date := mergeField existing_data.invoice_date new_data.invoice_date
    due_date := mergeField existing_data.due_date new_data.due_date
    total_amount := mergeField existing_data.total_amount new_data.total_amount
    currency := mergeField existing_data.currency new_data.currency
    total_tax := mergeField existing_data.total_tax new_data.total_tax
    description := mergeField existing_data.description new_data.description
    line_items := merged_line_items
    attachment_id := existing_data.attachment_id }

/-- The merged line items are always the existing ones followed by the new
ones, whichever emptiness branch the source takes. -/
theorem merge_invoice_data_line_items (a b : InvoiceData) :
    (merge_invoice_data a b).line_items = a.line_items ++ b.line_items := by
  unfold merge_invoice_data
  rcases hb : b.line_items with _ | ⟨x, xs⟩
  · simp
  · rcases ha : a.line_items with _ | ⟨y, ys⟩ <;> simp

/-- A truthy existing scalar is never changed by `mergeField`. -/
theorem mergeField_of_truthy (a b : PyVal) (h : truthy a = true) :
    mergeField a b = a := by
  unfold mergeField
  simp [h]

/-- One stored invoice of `process_pdf`'s in-memory list
(`invoice_data_list` entries): the extracted data and the 0-based page
indices assigned to the invoice. -/
structure InvoiceEntry where
  invoice_data : InvoiceData
  page_indices : List Nat
deriving DecidableEq, Repr

/-- The mutable session state of one `process_pdf` pass:
`invoice_data_list` and the `session_invoices` dictionary
(invoice number value, index into the list), in insertion order. -/
structure SegState where
  invoice_data_list : List InvoiceEntry
  session_invoices : List (PyVal × Nat)
deriving DecidableEq, Repr

/-- Lookup in the `session_invoices` dictionary (keys are unique, so the
first match is the match). -/
def lookupSession : List (PyVal × Nat) → PyVal → Option Nat
  | [], _ => Option.none
  | p :: rest, key => if p.1 = key then Option.some p.2 else lookupSession rest key

/-- In-place merge of a duplicate invoice into the entry at `idx`
(processor.py lines 970-978): the stored data is merged via
`merge_invoice_data` and the new page group is appended to the stored
`page_indices`. -/
def mergeAt : List InvoiceEntry → Nat → InvoiceData → List Nat → List InvoiceEntry
  | [], _, _, _ => []
  | e :: rest, 0, d, g =>
      { invoice_data := merge_invoice_data e.invoice_data d
        page_indices := e.page_indices ++ g } :: rest
  | e :: rest, idx + 1, d, g => e :: mergeAt rest idx d g

/-- The inner window-growing loop of `process_pdf` (lines 917-942):
`sizesLeft` counts the sizes still to try, `size` is the current window
size, `best` is the tracked `(best window size, best result)` pair.
Returns `(found_invoice, best)`; the accept branches store the accepted
window in `best` exactly as the source stores `best_group`/`best_result`
before `break`. -/
def scanLoop (oracle : Nat → Nat → WindowResult) (i : Nat) :
    Nat → Nat → Option (Nat × WindowResult) → Bool × Option (Nat × WindowResult)
  | 0, _, best => (false, best)
  | sizesLeft + 1, size, best =>
    let result := oracle i size
    if result.is_complete_invoice then
      (true, Option.some (size, result))
    else if result.is_invoice_start && !result.has_continuation then
      (true, Option.some (size, result))
    else
      let best2 :=
        if result.is_invoice_start then
          match best with
          | Option.none => Option.some (size, result)
          | Option.some (bs, br) =>
              if size > bs then Option.some (size, result) else Option.some (bs, br)
        else best
      scanLoop oracle i sizesLeft (size + 1) best2

/-- The whole window scan at cursor `i`: sizes `1 .. min 10 (total - i)`
(the source's `range(1, min(11, total_pages - i + 1))`). -/
def scanWindows (oracle : Nat → Nat → WindowResult) (total i : Nat) :
    Bool × Option (Nat × WindowResult) :=
  scanLoop oracle i (min 10 (total - i)) 1 Option.none

/-- The post-loop fix-up of `found_invoice` (lines 944-946): a recorded
best window whose result says `is_invoice_start` is accepted even though
no window was complete. -/
def scanStartFallback : Option (Nat × WindowResult) → Bool
  | Option.some (_, br) => br.is_invoice_start
  | Option.none => false

/-- True exactly when the cursor-step at `i` takes the emit branch
(`if found_invoice and best_result:`). -/
def scanAccepts (oracle : Nat → Nat → WindowResult) (total i : Nat) : Bool :=
  let scan := scanWindows oracle total i
  (scan.1 || scanStartFallback scan.2) && scan.2.isSome

/-- One iteration of the cursor loop of `process_pdf` (lines 911-1001):
scan windows at `i`; on acceptance build `invoice_data`, consolidate it
through `session_invoices` (merge on a truthy, already-registered
invoice number; otherwise append, registering a truthy number), and
advance the cursor by the accepted size; with no acceptance just advance
by one page, emitting nothing. -/
def segStep (oracle : Nat → Nat → WindowResult) (attachment_id : Int)
    (total i : Nat) (st : SegState) : Nat × SegState :=
  let scan := scanWindows oracle total i
  let found_invoice := scan.1 || scanStartFallback scan.2
  match scan.2 with
  | Option.some (size, best_result) =>
    if found_invoice then
      let invoice_data := buildInvoiceData best_result attachment_id
      let best_group := List.range' i size
      match (if truthy invoice_data.invoice_number then
               lookupSession st.session_invoices invoice_data.invoice_number
             else Option.none) with
      | Option.some existing_idx =>
          (i + size,
           { invoice_data_list :=
               mergeAt st.invoice_data_list existing_idx invoice_data best_group
             session_invoices := st.session_invoices })
      | Option.none =>
          (i + size,
           { invoice_data_list :=
               st.invoice_data_list ++
                 [{ invoice_data := invoice_data, page_indices := best_group }]
             session_invoices :=
               if truthy invoice_data.invoice_number then
                 st.session_invoices ++
                   [(invoice_data.invoice_number, st.invoice_data_list.length)]
               else st.session_invoices })
    else
      (i + 1, st)
  | Option.none => (i + 1, st)

/-- The cursor loop `while i < total_pages`, with explicit fuel; the loop
advances the cursor by at least one per iteration, so `total` units of
fuel always reach the exit condition (proved below). -/
def segLoopFuel (oracle : Nat → Nat → WindowResult) (attachment_id : Int)
    (total : Nat) : Nat → Nat → SegState → SegState
  | 0, _, st => st
  | fuel + 1, i, st =>
    if i < total then
      let s := segStep oracle attachment_id total i st
      segLoopFuel oracle attachment_id total fuel s.1 s.2
    else st

/-- The full segmentation-and-consolidation pass of `process_pdf` over a
`total`-page document, starting from the empty session. -/
def runSegmentation (oracle : Nat → Nat → WindowResult) (attachment_id : Int)
    (total : Nat) : SegState :=
  segLoopFuel oracle attachment_id total total 0
    { invoice_data_list := [], session_invoices := [] }

/-- All page indices stored across the entries, in entry order. -/
def pagesOfList : List InvoiceEntry → List Nat
  | [] => []
  | e :: rest => e.page_indices ++ pagesOfList rest

/-- All page indices assigned by a session state. -/
def pagesOf (st : SegState) : List Nat :=
  pagesOfList st.invoice_data_list

/-! ## Serialization (`json.dump` of `invoice_data`, lines 1032-1033)

The canonical structured document written per invoice: a JSON object with
the fields in the dictionary's fixed insertion order, nulls explicit, and
`line_items` an ordered array.  `deserialize` is `json.load` followed by
reading the fields back by key (as `find_existing_invoice_file` does). -/

/-- A structured JSON document value. -/
inductive JValue where
  | null : JValue
  | str (s : String) : JValue
  | num (n : Int) : JValue
  | arr (elems : List JValue) : JValue
  | obj (fields : List (String × JValue)) : JValue
deriving Repr

/-- A scalar value as JSON: `None` becomes an explicit `null`. -/
def jOfPy : PyVal → JValue
  | PyVal.none => JValue.null
  | PyVal.str s => JValue.str s
  | PyVal.num n => JValue.num n

/-- An optional number as JSON. -/
def jOfOptInt : Option Int → JValue
  | Option.none => JValue.null
  | Option.some n => JValue.num n

/-- One line item as a JSON object, keys in the schema's order. -/
def jOfLineItem (li : LineItem) : JValue :=
  JValue.obj
    [("item_name", JValue.str li.item_name),
     ("quantity", jOfOptInt li.quantity),
     ("unit_price", jOfOptInt li.unit_price),
     ("total_price", jOfOptInt li.total_price)]

/-- `serialize`: the JSON document `json.dump` writes for one
`invoice_data` dictionary — keys in insertion order (lines 950-964),
every field present (nulls never omitted), `line_items` an ordered
array. -/
def serialize (r : InvoiceData) : JValue :=
  JValue.obj
    [("invoice_number", jOfPy r.invoice_number),
     ("customer_name", jOfPy r.customer_name),
     ("vendor_name", jOfPy r.vendor_name),
     ("vendor_address", jOfPy r.vendor_address),
     ("vendor_phone", jOfPy r.vendor_phone),
     ("vendor_email", jOfPy r.vendor_email),
     ("invoice_date", jOfPy r.invoice_date),
     ("due_date", jOfPy r.due_date),
     ("total_amount", jOfPy r.total_amount),
     ("currency", jOfPy r.currency),
     ("total_tax", jOfPy r.total_tax),
     ("description", jOfPy r.description),
     ("line_items", JValue.arr (r.line_items.map jOfLineItem)),
     ("attachment_id", JValue.num r.attachment_id)]

/-- Key lookup in a JSON object's field list (first match). -/
def objField : List (String × JValue) → String → Option JValue
  | [], _ => Option.none
  | p :: rest, key => if p.1 = key then Option.some p.2 else objField rest key

/-- Read a scalar back from JSON. -/
def pyOfJ : JValue → Option PyVal
  | JValue.null => Option.some PyVal.none
  | JValue.str s => Option.some (PyVal.str s)
  | JValue.num n => Option.some (PyVal.num n)
  | _ => Option.none

/-- Read an optional number back from JSON. -/
def optIntOfJ : JValue → Option (Option Int)
  | JValue.null => Option.some Option.none
  | JValue.num n => Option.some (Option.some n)
  | _ => Option.none

/-- Read one line item back from JSON. -/
def lineItemOfJ : JValue → Option LineItem
  | JValue.obj fields =>
    match objField fields "item_name" with
    | Option.some (JValue.str name) =>
      (objField fields "quantity").bind fun jq =>
      (optIntOfJ jq).bind fun q =>
      (objField fields "unit_price").bind fun ju =>
      (optIntOfJ ju).bind fun u =>
      (objField fields "total_price").bind fun jt =>
      (optIntOfJ jt).bind fun t =>
      Option.some { item_name := name, quantity := q, unit_price := u, total_price := t }
    | _ => Option.none
  | _ => Option.none

/-- Read a whole line-item array back from JSON. -/
def lineItemsOfJ : List JValue → Option (List LineItem)
  | [] => Option.some []
  | v :: rest =>
    (lineItemOfJ v).bind fun li =>
    (lineItemsOfJ rest).bind fun lis =>
    Option.some (li :: lis)

/-- `deserialize`: parse a JSON document back into an `invoice_data`
record, reading each field by key. -/
def deserialize : JValue → Option InvoiceData
  | JValue.obj fields =>
    ((objField fields "invoice_number").bind pyOfJ).bind fun invoice_number =>
    ((objField fields "customer_name").bind pyOfJ).bind fun customer_name =>
    ((objField fields "vendor_name").bind pyOfJ).bind fun vendor_name =>
    ((objField fields "vendor_address").bind pyOfJ).bind fun vendor_address =>
    ((objField fields "vendor_phone").bind pyOfJ).bind fun vendor_phone =>
    ((objField fields "vendor_email").bind pyOfJ).bind fun vendor_email =>
    ((objField fields "invoice_date").bind pyOfJ).bind fun invoice_date =>
    ((objField fields "due_date").bind pyOfJ).bind fun due_date =>
    ((objField fields "total_amount").bind pyOfJ).bind fun total_amount =>
    ((objField fields "currency").bind pyOfJ).bind fun currency =>
    ((objField fields "total_tax").bind pyOfJ).bind fun total_tax =>
    ((objField fields "description").bind pyOfJ).bind fun description =>
    (match objField fields "line_items" with
     | Option.some (JValue.arr elems) => lineItemsOfJ elems
     | _ => Option.none).bind fun line_items =>
    (match objField fields "attachment_id" with
     | Option.some (JValue.num n) => Option.some n
     | _ => Option.none).bind fun attachment_id =>
    Option.some
      { invoice_number := invoice_number
        customer_name := customer_name
        vendor_name := vendor_name
        vendor_address := vendor_address
        vendor_phone := vendor_phone
        vendor_email := vendor_email
        invoice_date := invoice_date
        due_date := due_date
        total_amount := total_amount
        currency := currency
        total_tax := total_tax
        description := description
        line_items := line_items
        attachment_id := attachment_id }
  | _ => Option.none

/-- Reading a scalar back inverts writing it. -/
theorem pyOfJ_jOfPy (v : PyVal) : pyOfJ (jOfPy v) = Option.some v := by
  cases v <;> rfl

/-- Reading an optional number back inverts writing it. -/
theorem optIntOfJ_jOfOptInt (o : Option Int) :
    optIntOfJ (jOfOptInt o) = Option.some o := by
  cases o <;> rfl

/-- Reading one line item back inverts writing it. -/
theorem lineItemOfJ_jOfLineItem (li : LineItem) :
    lineItemOfJ (jOfLineItem li) = Option.some li := by
  simp [lineItemOfJ, jOfLineItem, objField, optIntOfJ_jOfOptInt, Option.bind]

/-- Reading a line-item array back inverts writing it. -/
theorem lineItemsOfJ_map (lis : List LineItem) :
    lineItemsOfJ (lis.map jOfLineItem) = Option.some lis := by
  induction lis with
  | nil => rfl
  | cons li rest ih => simp [lineItemsOfJ, lineItemOfJ_jOfLineItem, ih]

/-- Deserializing a serialized record recovers the record exactly. -/
theorem deserialize_serialize (r : InvoiceData) :
    deserialize (serialize r) = Option.some r := by
  simp [deserialize, serialize, objField, pyOfJ_jOfPy, lineItemsOfJ_map]

/-! ## Concrete instances used as inputs of counterexamples and witnesses -/

/-- A parsed oracle response with no boundary signal and no fields: the
model can legitimately answer this for a window it does not recognise. -/
def blankResult : WindowResult :=
  { is_complete_invoice := false
    is_invoice_start := false
    has_continuation := false
    invoice_number := PyVal.none
    customer_name := PyVal.none
    vendor_name := PyVal.none
    vendor_address := PyVal.none
    vendor_phone := PyVal.none
    vendor_email := PyVal.none
    invoice_date := PyVal.none
    due_date := PyVal.none
    total_amount := PyVal.none
    currency := PyVal.none
    total_tax := PyVal.none
    description := PyVal.none
    line_items := []
    confidence := 0
    reasoning := "" }

/-- An oracle that never reports a boundary signal on any window. -/
def noSignalOracle : Nat → Nat → WindowResult := fun _ _ => blankResult

/-- A parsed response declaring a complete invoice with the given
invoice number. -/
def completeWith (num : PyVal) : WindowResult :=
  { blankResult with is_complete_invoice := true, invoice_number := num }

/-- An oracle that calls every window a complete invoice carrying the
given invoice number. -/
def constOracle (num : PyVal) : Nat → Nat → WindowResult :=
  fun _ _ => completeWith num

/-- The empty session a pass starts from. -/
def initState : SegState := { invoice_data_list := [], session_invoices := [] }

/-- Merge counterexample, existing record: `total_amount` is the number
`0` — a populated, non-null value — and everything else empty. -/
def cexExisting : InvoiceData :=
  { invoice_number := PyVal.none
    customer_name := PyVal.none
    vendor_name := PyVal.none
    vendor_address := PyVal.none
    vendor_phone := PyVal.none
    vendor_email := PyVal.none
    invoice_date := PyVal.none
    due_date := PyVal.none
    total_amount := PyVal.num 0
    currency := PyVal.none
    total_tax := PyVal.none
    description := PyVal.none
    line_items := []
    attachment_id := 7 }

/-- Merge counterexample, incoming record: `total_amount` is `5`. -/
def cexNew : InvoiceData :=
  { cexExisting with total_amount := PyVal.num 5, customer_name := PyVal.str "ACME" }

/-- The spec's notion of an empty/null scalar (§4.3: "only an empty/null
existing field may be filled from the new group"): `None` or the empty
string.  Stated from the spec's words to compare against the code's
truthiness test. -/
def specNullOrEmpty : PyVal → Bool
  | PyVal.none => true
  | PyVal.str s => s = ""
  | PyVal.num _ => false

/-! ## C4 — merge monotonicity -/

/-- C4 (counterexample): the claim "merging B into A never clears or
overwrites an already-populated scalar field of A (only an empty/null
existing field may be filled)" is false: `merge_invoice_data` tests
Python truthiness, so an existing `total_amount` of `0` — populated,
neither null nor an empty string — is overwritten by the new record's
`5` (processor.py line 764, `if not existing_value and new_value`). -/
theorem C4_counterexample :
    specNullOrEmpty cexExisting.total_amount = false ∧
    (merge_invoice_data cexExisting cexNew).total_amount ≠ cexExisting.total_amount := by
  decide

/-- C4 (amended): merging B into A never clears or overwrites a scalar
field of A whose existing value is truthy (non-null, non-empty-string,
non-zero); a falsy existing field (null, `""`, or the number `0`) may be
filled from B; and the merged `line_items` is always A's items in order
followed by B's items in order, so its length is the sum of the two
lengths. -/
theorem C4_merge_monotonicity (A B : InvoiceData) :
    (merge_invoice_data A B).line_items = A.line_items ++ B.line_items ∧
    (merge_invoice_data A B).line_items.length
      = A.line_items.length + B.line_items.length ∧
    (truthy A.invoice_number = true →
      (merge_invoice_data A B).invoice_number = A.invoice_number) ∧
    (truthy A.customer_name = true →
      (merge_invoice_data A B).customer_name = A.customer_name) ∧
    (truthy A.vendor_name = true →
      (merge_invoice_data A B).vendor_name = A.vendor_name) ∧
    (truthy A.vendor_address = true →
      (merge_invoice_data A B).vendor_address = A.vendor_address) ∧
    (truthy A.vendor_phone = true →
      (merge_invoice_data A B).vendor_phone = A.vendor_phone) ∧
    (truthy A.vendor_email = true →
      (merge_invoice_data A B).vendor_email = A.vendor_email) ∧
    (truthy A.invoice_date = true →
      (merge_invoice_data A B).invoice_date = A.invoice_date) ∧
    (truthy A.due_date = true →
      (merge_invoice_data A B).due_date = A.due_date) ∧
    (truthy A.total_amount = true →
      (merge_invoice_data A B).total_amount = A.total_amount) ∧
    (truthy A.currency = true →
      (merge_invoice_data A B).currency = A.currency) ∧
    (truthy A.total_tax = true →
      (merge_invoice_data A B).total_tax = A.total_tax) ∧
    (truthy A.description = true →
      (merge_invoice_data A B).description = A.description) := by
  refine ⟨merge_invoice_data_line_items A B, ?_, ?_, ?_, ?_, ?_, ?_, ?_, ?_, ?_,
    ?_, ?_, ?_, ?_⟩
  · rw [merge_invoice_data_line_items]
    exact List.length_append _ _
  all_goals
    intro h
    simp [merge_invoice_data, mergeField_of_truthy _ _ h]

/-- C4 (witness): the amended merge theorem applied at a concrete pair —
the truthy `customer_name` of the new record fills the empty one without
touching anything populated, and the line-item lengths add. -/
theorem C4_merge_monotonicity_witness :
    truthy cexNew.customer_name = true ∧
    (merge_invoice_data cexNew cexExisting).customer_name = cexNew.customer_name ∧
    (merge_invoice_data cexNew cexExisting).line_items.length
      = cexNew.line_items.length + cexExisting.line_items.length := by
  have h := C4_merge_monotonicity cexNew cexExisting
  exact ⟨by decide, h.2.2.2.1 (by decide), h.2.1⟩

/-! ## C9 — serialization round trip -/

/-- C9: record serialization is round-trip stable —
`serialize (deserialize (serialize r)) = serialize r` for every record;
`serialize` fixes the field order, keeps explicit nulls, and renders
`line_items` as an ordered array, and `deserialize` recovers the record
exactly. -/
theorem C9_serialize_roundtrip (r : InvoiceData) :
    (deserialize (serialize r)).map serialize = Option.some (serialize r) ∧
    deserialize (serialize r) = Option.some r := by
  rw [deserialize_serialize]
  exact ⟨rfl, rfl⟩

/-! ## C1 / C3 / C6 / C10 — counterexamples from dropped pages and
empty-string invoice numbers -/

/-- C1 (counterexample): on a 1-page document whose oracle reports no
boundary signal on any window, `process_pdf` emits no group at all — the
final groups' page indices are `[]`, not a permutation of `[0]`, so they
do not partition the page set (the cursor loop's else branch at
processor.py lines 999-1001 advances without emitting). -/
theorem C1_counterexample :
    ¬ (pagesOf (runSegmentation noSignalOracle 7 1)).Perm (List.range 1) := by
  decide

/-- C3 (counterexample): at cursor 0 of a 1-page document where no tried
window reports `is_complete_invoice` or `is_invoice_start`, the code
does not accept a degenerate singleton window: it advances the cursor by
1 but emits no `InvoiceGroup` (the entry list stays empty), contrary to
the claim. -/
theorem C3_counterexample :
    scanWindows noSignalOracle 1 0 = (false, Option.none) ∧
    segStep noSignalOracle 7 1 0 initState = (1, initState) ∧
    (segStep noSignalOracle 7 1 0 initState).2.invoice_data_list.length ≠ 1 := by
  decide

/-- C6 (counterexample): a group whose `invoice_number` is the empty
string — non-null — and absent from the session index is NOT registered:
`process_pdf` guards registration with Python truthiness
(`if invoice_num:` at line 990), so the session stays empty while the
group is emitted standalone. -/
theorem C6_counterexample :
    (runSegmentation (constOracle (PyVal.str "")) 7 1).invoice_data_list.map
        (fun e => e.invoice_data.invoice_number) = [PyVal.str ""] ∧
    PyVal.str "" ≠ PyVal.none ∧
    (runSegmentation (constOracle (PyVal.str "")) 7 1).session_invoices = [] := by
  decide

/-- C10 (counterexample): two distinct final groups can carry the same
non-null `invoice_number`: with the oracle extracting the empty string
on both pages of a 2-page document, the truthiness guard at line 970
skips the duplicate check, and both groups are appended standalone with
the identical non-null number `""`. -/
theorem C10_counterexample :
    (runSegmentation (constOracle (PyVal.str "")) 7 2).invoice_data_list.map
        (fun e => e.invoice_data.invoice_number) = [PyVal.str "", PyVal.str ""] ∧
    (runSegmentation (constOracle (PyVal.str "")) 7 2).invoice_data_list.length = 2 ∧
    PyVal.str "" ≠ PyVal.none := by
  decide

/-! ## C2 — lifecycle status reporting

`process_pdf`'s orchestration skeleton (lines 833-1084): the status
PATCHes it issues, in order, as a function of the integrity check, the
repair outcome, the rasterization outcome, and the segmentation result.
Gateway errors (S3, record creation, status PATCH itself) do not change
the sequence of statuses chosen, so they are not parameters. -/

/-- An attachment status value sent to the metadata gateway. -/
inductive AttachmentStatus where
  | processing : AttachmentStatus
  | success : AttachmentStatus
  | failed : AttachmentStatus
deriving DecidableEq, Repr

/-- The abort/continue outcomes of the pre-segmentation steps of one
`process_pdf` run on a readable input file. -/
structure PdfRunInput where
  integrity_ok : Bool
  repair_ok : Bool
  render_ok : Bool
  total_pages : Nat
deriving DecidableEq, Repr

/-- The status-reporting skeleton of `process_pdf`: PATCH `processing`
first (line 864); a failed integrity check followed by a failed repair
PATCHes `failed` and returns no files (lines 880-885); a rasterization
failure PATCHes `failed` and returns no files (lines 891-897); otherwise
the pass runs to completion and PATCHes `success` unconditionally (line
1077), returning one output file per final group.  Returns the list of
statuses PATCHed, in order, and the final groups. -/
def process_pdf (inp : PdfRunInput) (raw : Nat → Nat → Except String WindowResult)
    (attachment_id : Int) : List AttachmentStatus × List InvoiceEntry :=
  if !inp.integrity_ok && !inp.repair_ok then
    ([AttachmentStatus.processing, AttachmentStatus.failed], [])
  else if !inp.render_ok then
    ([AttachmentStatus.processing, AttachmentStatus.failed], [])
  else
    let st := runSegmentation (oracleOf raw) attachment_id inp.total_pages
    ([AttachmentStatus.processing, AttachmentStatus.success], st.invoice_data_list)

/-- C2 (code bug): the claim — and the spec's §4.5 — say the terminal
status is `success` iff at least one group was emitted and written, and
`failed` in the zero-group case.  The code PATCHes `success`
unconditionally once segmentation finishes (processor.py line 1077): on
a valid, renderable 1-page document whose oracle reports no boundary
signal, zero groups are emitted yet the terminal status reported is
`success`.  The repo's own callers contradict this: the lambda handler
files such an attachment under `failed_attachments` and the CLI exits
1 when `output_files` is empty. -/
theorem C2_zero_groups_reports_success :
    (process_pdf ⟨true, true, true, 1⟩ (fun i s => Except.ok (noSignalOracle i s)) 7).2
      = [] ∧
    (process_pdf ⟨true, true, true, 1⟩ (fun i s => Except.ok (noSignalOracle i s)) 7).1
      = [AttachmentStatus.processing, AttachmentStatus.success] ∧
    (process_pdf ⟨false, false, true, 1⟩ (fun i s => Except.ok (noSignalOracle i s)) 7).1
      = [AttachmentStatus.processing, AttachmentStatus.failed] := by
  decide

/-! ## C5 — batch record creation

`create_invoice_records_batch` (lines 247-315), modelled as the trace of
HTTP requests it issues as a function of the batch response.  The
decisive facts are in the source text: the batch POST goes to a
hard-coded `webhook.site` URL — the `API_URL`-derived endpoint is
commented out at line 278 — and BOTH failure handlers fall back to
per-record POSTs: the inner one on HTTP 404, the outer
`RequestException` handler on every other HTTP error (re-raised at line
300) and on connection-level failures. -/

/-- The outcome of the batch POST. -/
inductive BatchResponse where
  | ok : BatchResponse
  | httpError (status : Nat) : BatchResponse
  | connError : BatchResponse
deriving DecidableEq, Repr

/-- The HTTP requests a `create_invoice_records_batch` call performs. -/
structure BatchTrace where
  batchPostUrl : Option String
  individualPosts : Nat
deriving DecidableEq, Repr

/-- The URL the batch POST actually targets (processor.py line 279). -/
def batchPostUrlUsed : String :=
  "https://webhook.site/1629bfe9-6548-4055-8078-857d4b2265f1"

/-- The batch endpoint the claim and the commented-out line 278 derive
from the configured `API_URL`. -/
def apiBatchUrl (api_url : String) : String :=
  api_url ++ "/api/v1/processor/invoices/batch"

/-- `create_invoice_records_batch` over `n` invoices: no request for an
empty batch; otherwise one POST of the whole batch to
`batchPostUrlUsed`, then — on HTTP 404 via the inner handler, and on any
other HTTP error or connection failure via the outer handler — one
per-record POST per invoice. -/
def create_invoice_records_batch (n : Nat) (resp : BatchResponse) : BatchTrace :=
  if n = 0 then { batchPostUrl := Option.none, individualPosts := 0 }
  else
    match resp with
    | BatchResponse.ok =>
        { batchPostUrl := Option.some batchPostUrlUsed, individualPosts := 0 }
    | BatchResponse.httpError status =>
        if status = 404 then
          { batchPostUrl := Option.some batchPostUrlUsed, individualPosts := n }
        else
          { batchPostUrl := Option.some batchPostUrlUsed, individualPosts := n }
    | BatchResponse.connError =>
        { batchPostUrl := Option.some batchPostUrlUsed, individualPosts := n }

/-- C5 (code bug): the claim says the batch is POSTed to the persistent
record gateway's batch endpoint derived from the configured `API_URL`,
with per-record fallback exactly on a not-found/unavailable response.
The code instead POSTs every batch to the hard-coded `webhook.site` URL
(the `API_URL`-derived endpoint is commented out at processor.py line
278), and it falls back to per-record POSTs on every failure — here
shown for HTTP 500, which is neither not-found nor unavailable. -/
theorem C5_batch_url_and_fallback :
    (create_invoice_records_batch 1 BatchResponse.ok).batchPostUrl
      = Option.some batchPostUrlUsed ∧
    batchPostUrlUsed ≠ apiBatchUrl "https://api.example.com" ∧
    (create_invoice_records_batch 1 (BatchResponse.httpError 500)).individualPosts = 1 ∧
    (create_invoice_records_batch 1 (BatchResponse.httpError 404)).individualPosts = 1 := by
  refine ⟨rfl, ?_, rfl, rfl⟩
  decide

/-! ## Structural lemmas on the session state -/

/-- Two adjacent page ranges concatenate (step-1 instance of
`List.range'_append`). -/
theorem range'_append_one (s m n : Nat) :
    List.range' s m ++ List.range' (s + m) n = List.range' s (m + n) := by
  have h := List.range'_append s m n 1
  simp only [Nat.one_mul] at h
  rw [h, Nat.add_comm]

/-- A successful session lookup is a membership. -/
theorem lookupSession_mem {l : List (PyVal × Nat)} {k : PyVal} {v : Nat}
    (h : lookupSession l k = Option.some v) : (k, v) ∈ l := by
  induction l with
  | nil => simp [lookupSession] at h
  | cons p rest ih =>
    simp only [lookupSession] at h
    by_cases hk : p.1 = k
    · simp [hk] at h
      have hp : p = (k, v) := by
        rcases p with ⟨p1, p2⟩
        simp at hk h
        rw [hk, h]
      rw [← hp]
      exact List.mem_cons_self p rest
    · simp [hk] at h
      exact List.mem_cons_of_mem _ (ih h)

/-- A failed session lookup means the key is absent. -/
theorem lookupSession_none {l : List (PyVal × Nat)} {k : PyVal}
    (h : lookupSession l k = Option.none) : k ∉ l.map Prod.fst := by
  induction l with
  | nil => simp
  | cons p rest ih =>
    simp only [lookupSession] at h
    by_cases hk : p.1 = k
    · simp [hk] at h
    · simp [hk] at h
      simp [ih h]
      intro he
      exact hk he.symm

/-- With no duplicate keys, the value at a key is unique. -/
theorem nodupKeys_mem_eq {l : List (PyVal × Nat)} {k : PyVal} {a b : Nat}
    (hnd : (l.map Prod.fst).Nodup)
    (ha : (k, a) ∈ l) (hb : (k, b) ∈ l) : a = b := by
  induction l with
  | nil => simp at ha
  | cons p rest ih =>
    simp only [List.map_cons, List.nodup_cons] at hnd
    rcases List.mem_cons.1 ha with ha1 | ha2 <;>
      rcases List.mem_cons.1 hb with hb1 | hb2
    · rw [← ha1] at hb1
      exact congrArg Prod.snd hb1.symm
    · exfalso
      apply hnd.1
      rw [← ha1]
      exact List.mem_map.2 ⟨(k, b), hb2, rfl⟩
    · exfalso
      apply hnd.1
      rw [← hb1]
      exact List.mem_map.2 ⟨(k, a), ha2, rfl⟩
    · exact ih hnd.2 ha2 hb2

/-- `mergeAt` keeps the number of entries. -/
theorem mergeAt_length (xs : List InvoiceEntry) (idx : Nat) (d : InvoiceData)
    (g : List Nat) : (mergeAt xs idx d g).length = xs.length := by
  induction xs generalizing idx with
  | nil => rfl
  | cons e rest ih =>
    cases idx with
    | zero => rfl
    | succ n => simp [mergeAt, ih]

/-- `mergeAt` leaves every other entry unchanged. -/
theorem mergeAt_getElem?_ne (xs : List InvoiceEntry) (idx : Nat) (d : InvoiceData)
    (g : List Nat) (j : Nat) (h : j ≠ idx) :
    (mergeAt xs idx d g)[j]? = xs[j]? := by
  induction xs generalizing idx j with
  | nil => rfl
  | cons e rest ih =>
    cases idx with
    | zero =>
      cases j with
      | zero => exact absurd rfl h
      | succ m => simp [mergeAt]
    | succ n =>
      cases j with
      | zero => simp [mergeAt]
      | succ m =>
        simp only [mergeAt, List.getElem?_cons_succ]
        exact ih n m (fun he => h (congrArg Nat.succ he))

/-- `mergeAt` rewrites exactly the addressed entry: data merged, page
group appended. -/
theorem mergeAt_getElem?_eq (xs : List InvoiceEntry) (idx : Nat) (d : InvoiceData)
    (g : List Nat) (e : InvoiceEntry) (h : xs[idx]? = Option.some e) :
    (mergeAt xs idx d g)[idx]? =
      Option.some
        { invoice_data := merge_invoice_data e.invoice_data d
          page_indices := e.page_indices ++ g } := by
  induction xs generalizing idx with
  | nil => simp at h
  | cons e0 rest ih =>
    cases idx with
    | zero =>
      simp at h
      simp [mergeAt, h]
    | succ n =>
      simp only [List.getElem?_cons_succ] at h
      simp only [mergeAt, List.getElem?_cons_succ]
      exact ih n h

/-- `pagesOfList` distributes over append. -/
theorem pagesOfList_append (xs ys : List InvoiceEntry) :
    pagesOfList (xs ++ ys) = pagesOfList xs ++ pagesOfList ys := by
  induction xs with
  | nil => rfl
  | cons e rest ih => simp [pagesOfList, ih]

/-- The pages of a merged list are a permutation of the old pages plus
the appended group. -/
theorem pagesOfList_mergeAt_perm (xs : List InvoiceEntry) (idx : Nat)
    (d : InvoiceData) (g : List Nat) (h : idx < xs.length) :
    (pagesOfList (mergeAt xs idx d g)).Perm (pagesOfList xs ++ g) := by
  induction xs generalizing idx with
  | nil => simp at h
  | cons e rest ih =>
    cases idx with
    | zero =>
      simp only [mergeAt, pagesOfList]
      rw [List.append_assoc, List.append_assoc]
      exact List.Perm.append_left _ List.perm_append_comm
    | succ n =>
      simp only [mergeAt, pagesOfList]
      have hr : n < rest.length := by
        simpa using Nat.lt_of_succ_lt_succ h
      rw [List.append_assoc]
      exact List.Perm.append_left _ (ih n hr)

/-! ## Behaviour of the window scan and of one cursor step -/

/-- Any window the scan loop returns has a size between the tracked lower
bound and the last size it may try. -/
theorem scanLoop_some_bounds (oracle : Nat → Nat → WindowResult) (i : Nat) :
    ∀ (sizesLeft size : Nat) (best : Option (Nat × WindowResult)) (lo hi : Nat),
      (∀ bs br, best = Option.some (bs, br) → lo ≤ bs ∧ bs ≤ hi) →
      lo ≤ size → size + sizesLeft ≤ hi + 1 →
      ∀ f s r, scanLoop oracle i sizesLeft size best = (f, Option.some (s, r)) →
        lo ≤ s ∧ s ≤ hi := by
  intro sizesLeft
  induction sizesLeft with
  | zero =>
    intro size best lo hi hbest hlo hhi f s r heq
    simp only [scanLoop] at heq
    injection heq with hfst hsnd
    exact hbest s r hsnd
  | succ left ih =>
    intro size best lo hi hbest hlo hhi f s r heq
    simp only [scanLoop] at heq
    by_cases h1 : (oracle i size).is_complete_invoice
    · rw [if_pos h1] at heq
      injection heq with hfst hsnd
      injection hsnd.symm with hpair
      injection hpair with hs hr
      constructor
      · rw [hs]; exact hlo
      · rw [hs]; omega
    · rw [if_neg h1] at heq
      by_cases h2 : (oracle i size).is_invoice_start && !(oracle i size).has_continuation
      · rw [if_pos h2] at heq
        injection heq with hfst hsnd
        injection hsnd.symm with hpair
        injection hpair with hs hr
        constructor
        · rw [hs]; exact hlo
        · rw [hs]; omega
      · rw [if_neg h2] at heq
        refine ih (size + 1) _ lo hi ?_ (Nat.le_succ_of_le hlo) (by omega) f s r heq
        intro bs br hb
        by_cases h3 : (oracle i size).is_invoice_start
        · rw [if_pos h3] at hb
          rcases best with _ | ⟨obs, obr⟩
          · dsimp only at hb
            injection hb with hpair
            injection hpair with hs hr
            constructor
            · rw [← hs]; exact hlo
            · rw [← hs]; omega
          · dsimp only at hb
            by_cases h4 : size > obs
            · rw [if_pos h4] at hb
              injection hb with hpair
              injection hpair with hs hr
              constructor
              · rw [← hs]; exact hlo
              · rw [← hs]; omega
            · rw [if_neg h4] at hb
              injection hb with hpair
              injection hpair with hs hr
              have hob := hbest obs obr rfl
              constructor
              · rw [← hs]; exact hob.1
              · rw [← hs]; exact hob.2
        · rw [if_neg h3] at hb
          exact hbest bs br hb

/-- The accepted window of a scan has size at least 1 and at most
`min 10 (total - i)` — it never reaches past the last page. -/
theorem scanWindows_some_bounds (oracle : Nat → Nat → WindowResult)
    (total i : Nat) (f : Bool) (s : Nat) (r : WindowResult)
    (h : scanWindows oracle total i = (f, Option.some (s, r))) :
    1 ≤ s ∧ s ≤ min 10 (total - i) := by
  refine scanLoop_some_bounds oracle i (min 10 (total - i)) 1 Option.none 1
    (min 10 (total - i)) ?_ (Nat.le_refl 1) ?_ f s r h
  · intro bs br hb
    simp at hb
  · omega

/-- A step with no accepted window only advances the cursor. -/
theorem segStep_skip (oracle : Nat → Nat → WindowResult) (aid : Int)
    (total i : Nat) (st : SegState)
    (h : scanAccepts oracle total i = false) :
    segStep oracle aid total i st = (i + 1, st) := by
  unfold scanAccepts at h
  unfold segStep
  rcases hs : (scanWindows oracle total i).2 with _ | ⟨size, br⟩
  · simp [hs]
  · simp only [hs] at h ⊢
    simp only [Option.isSome_some, Bool.and_true] at h
    simp [h]

/-- A step that merges into a registered duplicate (truthy invoice
number found in the session). -/
theorem segStep_emit_merge (oracle : Nat → Nat → WindowResult) (aid : Int)
    (total i : Nat) (st : SegState) (size : Nat) (br : WindowResult) (idx : Nat)
    (hscan : (scanWindows oracle total i).2 = Option.some (size, br))
    (hfound : ((scanWindows oracle total i).1
                || scanStartFallback (scanWindows oracle total i).2) = true)
    (htr : truthy (buildInvoiceData br aid).invoice_number = true)
    (hlook : lookupSession st.session_invoices
               (buildInvoiceData br aid).invoice_number = Option.some idx) :
    segStep oracle aid total i st =
      (i + size,
       { invoice_data_list :=
           mergeAt st.invoice_data_list idx (buildInvoiceData br aid)
             (List.range' i size)
         session_invoices := st.session_invoices }) := by
  unfold segStep
  rw [hscan] at hfound
  simp [hscan, hfound, htr, hlook]

/-- A step that emits a standalone group and registers its truthy,
previously unseen invoice number. -/
theorem segStep_emit_new_registered (oracle : Nat → Nat → WindowResult) (aid : Int)
    (total i : Nat) (st : SegState) (size : Nat) (br : WindowResult)
    (hscan : (scanWindows oracle total i).2 = Option.some (size, br))
    (hfound : ((scanWindows oracle total i).1
                || scanStartFallback (scanWindows oracle total i).2) = true)
    (htr : truthy (buildInvoiceData br aid).invoice_number = true)
    (hlook : lookupSession st.session_invoices
               (buildInvoiceData br aid).invoice_number = Option.none) :
    segStep oracle aid total i st =
      (i + size,
       { invoice_data_list :=
           st.invoice_data_list ++
             [{ invoice_data := buildInvoiceData br aid
                page_indices := List.range' i size }]
         session_invoices :=
           st.session_invoices ++
             [((buildInvoiceData br aid).invoice_number,
               st.invoice_data_list.length)] }) := by
  unfold segStep
  rw [hscan] at hfound
  simp [hscan, hfound, htr, hlook]

/-- A step that emits a standalone group with a falsy invoice number:
nothing is registered. -/
theorem segStep_emit_new_unregistered (oracle : Nat → Nat → WindowResult) (aid : Int)
    (total i : Nat) (st : SegState) (size : Nat) (br : WindowResult)
    (hscan : (scanWindows oracle total i).2 = Option.some (size, br))
    (hfound : ((scanWindows oracle total i).1
                || scanStartFallback (scanWindows oracle total i).2) = true)
    (htr : truthy (buildInvoiceData br aid).invoice_number = false) :
    segStep oracle aid total i st =
      (i + size,
       { invoice_data_list :=
           st.invoice_data_list ++
             [{ invoice_data := buildInvoiceData br aid
                page_indices := List.range' i size }]
         session_invoices := st.session_invoices }) := by
  unfold segStep
  rw [hscan] at hfound
  simp [hscan, hfound, htr]

/-- Every cursor step advances the cursor. -/
theorem segStep_advance (oracle : Nat → Nat → WindowResult) (aid : Int)
    (total i : Nat) (st : SegState) :
    i + 1 ≤ (segStep oracle aid total i st).1 := by
  unfold segStep
  rcases hs : (scanWindows oracle total i).2 with _ | ⟨size, br⟩
  · simp [hs]
  · have hb := scanWindows_some_bounds oracle total i
      (scanWindows oracle total i).1 size br (by rw [← hs])
    by_cases hf : ((scanWindows oracle total i).1
        || scanStartFallback (scanWindows oracle total i).2) = true
    · rw [hs] at hf
      simp only [hs, hf, if_true]
      rcases hl : (if truthy (buildInvoiceData br aid).invoice_number then
          lookupSession st.session_invoices (buildInvoiceData br aid).invoice_number
        else Option.none) with _ | idx
      · simp [hl]; omega
      · simp [hl]; omega
    · rw [hs] at hf
      simp only [hs]
      rw [Bool.not_eq_true] at hf
      simp [hf]

/-- A cursor step from inside the document never passes the last page. -/
theorem segStep_le_total (oracle : Nat → Nat → WindowResult) (aid : Int)
    (total i : Nat) (st : SegState) (h : i < total) :
    (segStep oracle aid total i st).1 ≤ total := by
  unfold segStep
  rcases hs : (scanWindows oracle total i).2 with _ | ⟨size, br⟩
  · simp [hs]; omega
  · have hb := scanWindows_some_bounds oracle total i
      (scanWindows oracle total i).1 size br (by rw [← hs])
    by_cases hf : ((scanWindows oracle total i).1
        || scanStartFallback (scanWindows oracle total i).2) = true
    · rw [hs] at hf
      simp only [hs, hf, if_true]
      rcases hl : (if truthy (buildInvoiceData br aid).invoice_number then
          lookupSession st.session_invoices (buildInvoiceData br aid).invoice_number
        else Option.none) with _ | idx
      · simp [hl]; omega
      · simp [hl]; omega
    · rw [hs] at hf
      simp only [hs]
      rw [Bool.not_eq_true] at hf
      simp [hf]; omega

/-! ## The pass invariant -/

/-- The invoice number stored in an entry. -/
def entryNum (e : InvoiceEntry) : PyVal := e.invoice_data.invoice_number

/-- Consistency of the session dictionary with the entry list: every
registered pair has a truthy key and points at an entry carrying exactly
that invoice number; every entry with a truthy invoice number is
registered at its own index; keys are unique. -/
def SessInv (st : SegState) : Prop :=
  (∀ p ∈ st.session_invoices, truthy p.1 = true ∧
     ∃ e, st.invoice_data_list[p.2]? = Option.some e ∧ entryNum e = p.1) ∧
  (∀ j e, st.invoice_data_list[j]? = Option.some e →
     truthy (entryNum e) = true → (entryNum e, j) ∈ st.session_invoices) ∧
  (st.session_invoices.map Prod.fst).Nodup

/-- The invariant of the cursor loop at cursor `i`: all assigned pages
are below the cursor, no page is assigned twice, and the session
dictionary is consistent. -/
def StateInv (i : Nat) (st : SegState) : Prop :=
  (∀ p ∈ pagesOf st, p < i) ∧ (pagesOf st).Nodup ∧ SessInv st

/-- The empty session satisfies the invariant at cursor 0. -/
theorem StateInv_init : StateInv 0 initState := by
  refine ⟨?_, ?_, ?_, ?_, ?_⟩ <;> simp [pagesOf, pagesOfList, initState]

/-- Appending a fresh group of pages `[i, i+size)` keeps the page part
of the invariant at cursor `i + size`. -/
theorem pages_append_inv (i size : Nat) (xs : List InvoiceEntry) (d : InvoiceData)
    (hb : ∀ p ∈ pagesOfList xs, p < i) (hnd : (pagesOfList xs).Nodup) :
    (∀ p ∈ pagesOfList (xs ++ [{ invoice_data := d, page_indices := List.range' i size }]),
       p < i + size) ∧
    (pagesOfList (xs ++ [{ invoice_data := d, page_indices := List.range' i size }])).Nodup := by
  rw [pagesOfList_append]
  have hsingle :
      pagesOfList [{ invoice_data := d, page_indices := List.range' i size }]
        = List.range' i size := by
    simp [pagesOfList]
  rw [hsingle]
  constructor
  · intro p hp
    rcases List.mem_append.1 hp with hp1 | hp2
    · exact Nat.lt_of_lt_of_le (hb p hp1) (Nat.le_add_right i size)
    · exact (List.mem_range'_1.1 hp2).2
  · rw [List.nodup_append]
    refine ⟨hnd, List.nodup_range' i size, ?_⟩
    intro p hp1 hp2
    have h1 := hb p hp1
    have h2 := (List.mem_range'_1.1 hp2).1
    omega

/-- The bound part of the invariant is monotone in the cursor. -/
theorem StateInv_mono (i i2 : Nat) (st : SegState) (h : i ≤ i2)
    (hinv : StateInv i st) : StateInv i2 st :=
  ⟨fun p hp => Nat.lt_of_lt_of_le (hinv.1 p hp) h, hinv.2.1, hinv.2.2⟩

/-- Emitting a standalone group with a falsy invoice number preserves
the invariant. -/
theorem StateInv_append_unreg (i size : Nat) (st : SegState) (d : InvoiceData)
    (hinv : StateInv i st) (htr : truthy d.invoice_number = false) :
    StateInv (i + size)
      { invoice_data_list :=
          st.invoice_data_list ++ [{ invoice_data := d, page_indices := List.range' i size }]
        session_invoices := st.session_invoices } := by
  obtain ⟨hb, hnd, hA, hB, hC⟩ := hinv
  have hp := pages_append_inv i size st.invoice_data_list d hb hnd
  refine ⟨hp.1, hp.2, ?_, ?_, hC⟩
  · intro p hpm
    obtain ⟨htru, e, hg, hn⟩ := hA p hpm
    refine ⟨htru, e, ?_, hn⟩
    have hlen : p.2 < st.invoice_data_list.length := (List.getElem?_eq_some_iff.1 hg).1
    rw [List.getElem?_append_left hlen]
    exact hg
  · intro j e hg htru
    have hlen : j < st.invoice_data_list.length + 1 := by
      have := (List.getElem?_eq_some_iff.1 hg).1
      simpa using this
    rcases Nat.lt_succ_iff_lt_or_eq.1 hlen with hj | hj
    · rw [List.getElem?_append_left hj] at hg
      exact hB j e hg htru
    · rw [hj, List.getElem?_concat_length] at hg
      injection hg with hge
      rw [← hge] at htru
      rw [show entryNum { invoice_data := d, page_indices := List.range' i size }
            = d.invoice_number from rfl] at htru
      rw [htr] at htru
      exact absurd htru (by simp)

/-- Emitting a standalone group and registering its truthy, previously
absent invoice number preserves the invariant. -/
theorem StateInv_append_reg (i size : Nat) (st : SegState) (d : InvoiceData)
    (hinv : StateInv i st) (htr : truthy d.invoice_number = true)
    (hlook : lookupSession st.session_invoices d.invoice_number = Option.none) :
    StateInv (i + size)
      { invoice_data_list :=
          st.invoice_data_list ++ [{ invoice_data := d, page_indices := List.range' i size }]
        session_invoices :=
          st.session_invoices ++ [(d.invoice_number, st.invoice_data_list.length)] } := by
  obtain ⟨hb, hnd, hA, hB, hC⟩ := hinv
  have hp := pages_append_inv i size st.invoice_data_list d hb hnd
  refine ⟨hp.1, hp.2, ?_, ?_, ?_⟩
  · intro p hpm
    rcases List.mem_append.1 hpm with hp1 | hp2
    · obtain ⟨htru, e, hg, hn⟩ := hA p hp1
      refine ⟨htru, e, ?_, hn⟩
      have hlen : p.2 < st.invoice_data_list.length := (List.getElem?_eq_some_iff.1 hg).1
      rw [List.getElem?_append_left hlen]
      exact hg
    · have hpd : p = (d.invoice_number, st.invoice_data_list.length) := by
        simpa using hp2
      rw [hpd]
      refine ⟨htr, { invoice_data := d, page_indices := List.range' i size }, ?_, rfl⟩
      exact List.getElem?_concat_length _ _
  · intro j e hg htru
    have hlen : j < st.invoice_data_list.length + 1 := by
      have := (List.getElem?_eq_some_iff.1 hg).1
      simpa using this
    rcases Nat.lt_succ_iff_lt_or_eq.1 hlen with hj | hj
    · rw [List.getElem?_append_left hj] at hg
      exact List.mem_append_left _ (hB j e hg htru)
    · rw [hj, List.getElem?_concat_length] at hg
      injection hg with hge
      rw [← hge, hj]
      exact List.mem_append_right _ (by simp [entryNum])
  · rw [List.map_append, List.nodup_append]
    refine ⟨hC, by simp, ?_⟩
    intro k hk1 hk2
    simp at hk2
    rw [hk2] at hk1
    exact absurd hk1 (lookupSession_none hlook)

/-- Merging into the registered duplicate preserves the invariant. -/
theorem StateInv_merge (i size : Nat) (st : SegState) (d : InvoiceData) (idx : Nat)
    (hinv : StateInv i st) (htr : truthy d.invoice_number = true)
    (hlook : lookupSession st.session_invoices d.invoice_number = Option.some idx) :
    StateInv (i + size)
      { invoice_data_list := mergeAt st.invoice_data_list idx d (List.range' i size)
        session_invoices := st.session_invoices } := by
  obtain ⟨hb, hnd, hA, hB, hC⟩ := hinv
  have hmem : (d.invoice_number, idx) ∈ st.session_invoices := lookupSession_mem hlook
  obtain ⟨_, e, hge, hne⟩ := hA _ hmem
  have hidx : idx < st.invoice_data_list.length := (List.getElem?_eq_some_iff.1 hge).1
  have hperm := pagesOfList_mergeAt_perm st.invoice_data_list idx d
    (List.range' i size) hidx
  have hmerged : (mergeAt st.invoice_data_list idx d (List.range' i size))[idx]? =
      Option.some
        { invoice_data := merge_invoice_data e.invoice_data d
          page_indices := e.page_indices ++ List.range' i size } :=
    mergeAt_getElem?_eq _ idx d _ e hge
  have hmnum : entryNum
      { invoice_data := merge_invoice_data e.invoice_data d
        page_indices := e.page_indices ++ List.range' i size } = entryNum e := by
    show (merge_invoice_data e.invoice_data d).invoice_number
        = e.invoice_data.invoice_number
    have htre : truthy e.invoice_data.invoice_number = true := by
      show truthy (entryNum e) = true
      rw [hne]
      exact htr
    simp [merge_invoice_data]
    exact mergeField_of_truthy _ _ htre
  refine ⟨?_, ?_, ?_, ?_, hC⟩
  · intro p hp
    have hp2 := hperm.subset hp
    rcases List.mem_append.1 hp2 with hp3 | hp4
    · exact Nat.lt_of_lt_of_le (hb p (by exact hp3)) (Nat.le_add_right i size)
    · exact (List.mem_range'_1.1 hp4).2
  · show (pagesOfList (mergeAt st.invoice_data_list idx d (List.range' i size))).Nodup
    rw [hperm.nodup_iff]
    rw [List.nodup_append]
    refine ⟨hnd, List.nodup_range' i size, ?_⟩
    intro p hp1 hp2
    have h1 := hb p hp1
    have h2 := (List.mem_range'_1.1 hp2).1
    omega
  · intro p hpm
    obtain ⟨htru, e2, hg2, hn2⟩ := hA p hpm
    by_cases hpj : p.2 = idx
    · rw [hpj] at hg2
      have he2 : e2 = e := by
        rw [hge] at hg2
        injection hg2 with hinj
        exact hinj.symm
      refine ⟨htru, _, by rw [hpj]; exact hmerged, ?_⟩
      rw [hmnum, ← he2]
      exact hn2
    · refine ⟨htru, e2, ?_, hn2⟩
      rw [mergeAt_getElem?_ne _ idx d _ p.2 hpj]
      exact hg2
  · intro j e3 hg3 htru3
    by_cases hji : j = idx
    · rw [hji, hmerged] at hg3
      injection hg3 with hg4
      rw [← hg4, hmnum]
      rw [← hg4, hmnum] at htru3
      rw [hji]
      exact hB idx e hge htru3
    · rw [mergeAt_getElem?_ne _ idx d _ j hji] at hg3
      exact hB j e3 hg3 htru3

/-- One cursor step preserves the invariant (at the new cursor). -/
theorem segStep_preserves (oracle : Nat → Nat → WindowResult) (aid : Int)
    (total i : Nat) (st : SegState) (hinv : StateInv i st) :
    StateInv (segStep oracle aid total i st).1 (segStep oracle aid total i st).2 := by
  rcases hs : (scanWindows oracle total i).2 with _ | ⟨size, br⟩
  · have hacc : scanAccepts oracle total i = false := by
      simp [scanAccepts, hs]
    rw [segStep_skip oracle aid total i st hacc]
    exact StateInv_mono i (i + 1) st (Nat.le_succ i) hinv
  · by_cases hf : ((scanWindows oracle total i).1
        || scanStartFallback (scanWindows oracle total i).2) = true
    · by_cases htr : truthy (buildInvoiceData br aid).invoice_number
      · rcases hl : lookupSession st.session_invoices
            (buildInvoiceData br aid).invoice_number with _ | idx
        · rw [segStep_emit_new_registered oracle aid total i st size br hs hf htr hl]
          exact StateInv_append_reg i size st _ hinv htr hl
        · rw [segStep_emit_merge oracle aid total i st size br idx hs hf htr hl]
          exact StateInv_merge i size st _ idx hinv htr hl
      · rw [segStep_emit_new_unregistered oracle aid total i st size br hs hf
          (Bool.not_eq_true _ ▸ htr)]
        exact StateInv_append_unreg i size st _ hinv (Bool.not_eq_true _ ▸ htr)
    · have hacc : scanAccepts oracle total i = false := by
        rw [Bool.not_eq_true] at hf
        simp [scanAccepts, hf]
      rw [segStep_skip oracle aid total i st hacc]
      exact StateInv_mono i (i + 1) st (Nat.le_succ i) hinv

/-- An accepting cursor step advances by the accepted size and its new
page multiset is the old one plus the freshly scanned range. -/
theorem segStep_accept_pages (oracle : Nat → Nat → WindowResult) (aid : Int)
    (total i : Nat) (st : SegState) (size : Nat) (br : WindowResult)
    (hinv : StateInv i st)
    (hs : (scanWindows oracle total i).2 = Option.some (size, br))
    (hf : ((scanWindows oracle total i).1
            || scanStartFallback (scanWindows oracle total i).2) = true) :
    (segStep oracle aid total i st).1 = i + size ∧
    (pagesOf (segStep oracle aid total i st).2).Perm
      (pagesOf st ++ List.range' i size) := by
  by_cases htr : truthy (buildInvoiceData br aid).invoice_number
  · rcases hl : lookupSession st.session_invoices
        (buildInvoiceData br aid).invoice_number with _ | idx
    · rw [segStep_emit_new_registered oracle aid total i st size br hs hf htr hl]
      refine ⟨rfl, ?_⟩
      show (pagesOfList (st.invoice_data_list ++ _)).Perm _
      rw [pagesOfList_append]
      simp [pagesOfList, pagesOf]
    · rw [segStep_emit_merge oracle aid total i st size br idx hs hf htr hl]
      refine ⟨rfl, ?_⟩
      have hmem := lookupSession_mem hl
      obtain ⟨_, e, hge, _⟩ := hinv.2.2.1 _ hmem
      have hidx : idx < st.invoice_data_list.length := (List.getElem?_eq_some_iff.1 hge).1
      exact pagesOfList_mergeAt_perm st.invoice_data_list idx _ _ hidx
  · rw [segStep_emit_new_unregistered oracle aid total i st size br hs hf
      (Bool.not_eq_true _ ▸ htr)]
    refine ⟨rfl, ?_⟩
    show (pagesOfList (st.invoice_data_list ++ _)).Perm _
    rw [pagesOfList_append]
    simp [pagesOfList, pagesOf]

/-- Running the loop from an invariant state lands in an invariant state
at some cursor not past the document end. -/
theorem segLoopFuel_inv (oracle : Nat → Nat → WindowResult) (aid : Int)
    (total : Nat) :
    ∀ (fuel i : Nat) (st : SegState), i ≤ total → StateInv i st →
      ∃ i2, i2 ≤ total ∧ StateInv i2 (segLoopFuel oracle aid total fuel i st) := by
  intro fuel
  induction fuel with
  | zero =>
    intro i st hle hinv
    exact ⟨i, hle, hinv⟩
  | succ fuel ih =>
    intro i st hle hinv
    by_cases hi : i < total
    · simp only [segLoopFuel, hi, if_true]
      exact ih _ _ (segStep_le_total oracle aid total i st hi)
        (segStep_preserves oracle aid total i st hinv)
    · simp only [segLoopFuel, hi, if_false]
      exact ⟨i, hle, hinv⟩

/-- With enough fuel and a scan that accepts at every position, the loop
assigns exactly the pages `[0, total)`. -/
theorem segLoopFuel_cover (oracle : Nat → Nat → WindowResult) (aid : Int)
    (total : Nat)
    (Hacc : ∀ j, j < total → scanAccepts oracle total j = true) :
    ∀ (fuel i : Nat) (st : SegState), total ≤ i + fuel → i ≤ total →
      StateInv i st → (pagesOf st).Perm (List.range' 0 i) →
      (pagesOf (segLoopFuel oracle aid total fuel i st)).Perm
        (List.range' 0 total) := by
  intro fuel
  induction fuel with
  | zero =>
    intro i st hfu hle hinv hperm
    have hit : i = total := by omega
    simpa [segLoopFuel, hit] using hperm
  | succ fuel ih =>
    intro i st hfu hle hinv hperm
    by_cases hi : i < total
    · simp only [segLoopFuel, hi, if_true]
      have hacc := Hacc i hi
      rcases hs : (scanWindows oracle total i).2 with _ | ⟨size, br⟩
      · rw [scanAccepts, hs] at hacc
        simp at hacc
      · have hf : ((scanWindows oracle total i).1
            || scanStartFallback (scanWindows oracle total i).2) = true := by
          rw [scanAccepts] at hacc
          simp only [hs] at hacc
          simp at hacc
          rcases hacc with h1 | h2
          · rw [hs]
            simp [h1]
          · rw [hs]
            have h3 : br.is_invoice_start = true := by
              simpa [scanStartFallback] using h2
            simp [scanStartFallback, h3]
        have hstep := segStep_accept_pages oracle aid total i st size br hinv hs hf
        have hbounds := scanWindows_some_bounds oracle total i
          (scanWindows oracle total i).1 size br (by rw [← hs])
        have hnew : (pagesOf (segStep oracle aid total i st).2).Perm
            (List.range' 0 (i + size)) := by
          refine hstep.2.trans ?_
          have hr : List.range' 0 i ++ List.range' i size = List.range' 0 (i + size) := by
            have := range'_append_one 0 i size
            simpa using this
          rw [← hr]
          exact hperm.append_right _
        have hadv : (segStep oracle aid total i st).1 = i + size := hstep.1
        have hle2 : i + size ≤ total := by
          have := hbounds.2
          omega
        have hfu2 : total ≤ (i + size) + fuel := by
          have := hbounds.1
          omega
        have hinv2 := segStep_preserves oracle aid total i st hinv
        rw [hadv] at hinv2
        have := ih (i + size) (segStep oracle aid total i st).2 hfu2 hle2 hinv2 hnew
        rw [hadv]
        exact this
    · simp only [segLoopFuel, hi, if_false]
      have hit : i = total := by omega
      rw [hit] at hperm
      exact hperm

/-- With the cursor already at or past the end, the loop is a no-op. -/
theorem segLoopFuel_of_ge (oracle : Nat → Nat → WindowResult) (aid : Int)
    (total fuel i : Nat) (st : SegState) (h : total ≤ i) :
    segLoopFuel oracle aid total fuel i st = st := by
  cases fuel with
  | zero => rfl
  | succ f => simp [segLoopFuel, Nat.not_lt.2 h]

/-- Fuel beyond `total - i` is never consumed: the loop result is stable
under adding fuel once the remaining page count is covered. -/
theorem segLoopFuel_add (oracle : Nat → Nat → WindowResult) (aid : Int)
    (total : Nat) :
    ∀ (fuel extra i : Nat) (st : SegState), total ≤ i + fuel →
      segLoopFuel oracle aid total (fuel + extra) i st
        = segLoopFuel oracle aid total fuel i st := by
  intro fuel
  induction fuel with
  | zero =>
    intro extra i st h
    simp only [Nat.add_zero] at h
    rw [Nat.zero_add]
    rw [segLoopFuel_of_ge oracle aid total extra i st h]
    rfl
  | succ fuel ih =>
    intro extra i st h
    have hsh : fuel + 1 + extra = (fuel + extra) + 1 := by omega
    rw [hsh]
    by_cases hi : i < total
    · simp only [segLoopFuel, hi, if_true]
      refine ih extra _ _ ?_
      have := segStep_advance oracle aid total i st
      omega
    · simp only [segLoopFuel, hi, if_false]

/-- Session consistency forces distinct entries to carry distinct truthy
invoice numbers. -/
theorem SessInv_unique (st : SegState) (hinv : SessInv st) :
    ∀ (j k : Nat) (ej ek : InvoiceEntry),
      st.invoice_data_list[j]? = Option.some ej →
      st.invoice_data_list[k]? = Option.some ek →
      j ≠ k → truthy (entryNum ej) = true → entryNum ej ≠ entryNum ek := by
  intro j k ej ek hj hk hne htr heq
  have h1 := hinv.2.1 j ej hj htr
  have h2 := hinv.2.1 k ek hk (by rw [← heq]; exact htr)
  rw [← heq] at h2
  exact hne (nodupKeys_mem_eq hinv.2.2 h1 h2)

/-- The record an always-erroring pass stores for each page: all fields
null, no line items. -/
def emptyInvoiceData (aid : Int) : InvoiceData :=
  buildInvoiceData (fallbackResult "") aid

/-- When the call at cursor `i` with window size 1 errors, the scan
accepts that singleton window immediately with the neutral default. -/
theorem scanWindows_err (raw : Nat → Nat → Except String WindowResult)
    (total i : Nat) (e : String) (hi : i < total)
    (he : raw i 1 = Except.error e) :
    scanWindows (oracleOf raw) total i = (true, Option.some (1, fallbackResult e)) := by
  unfold scanWindows
  have hmin : min 10 (total - i) = (min 10 (total - i) - 1) + 1 := by omega
  rw [hmin]
  simp only [scanLoop]
  have ho : oracleOf raw i 1 = fallbackResult e := by
    simp [oracleOf, he, analyze_and_extract_invoice]
  rw [ho]
  simp [fallbackResult]

/-- A cursor step under an erroring oracle appends one all-null
singleton group and advances by one page. -/
theorem segStep_err (raw : Nat → Nat → Except String WindowResult) (aid : Int)
    (total i : Nat) (st : SegState) (e : String) (hi : i < total)
    (he : raw i 1 = Except.error e) :
    segStep (oracleOf raw) aid total i st =
      (i + 1,
       { invoice_data_list :=
           st.invoice_data_list ++
             [{ invoice_data := emptyInvoiceData aid, page_indices := [i] }]
         session_invoices := st.session_invoices }) := by
  have hscan := scanWindows_err raw total i e hi he
  have hs2 : (scanWindows (oracleOf raw) total i).2
      = Option.some (1, fallbackResult e) := by rw [hscan]
  have hf : ((scanWindows (oracleOf raw) total i).1
      || scanStartFallback (scanWindows (oracleOf raw) total i).2) = true := by
    rw [hscan]
    rfl
  have htr : truthy (buildInvoiceData (fallbackResult e) aid).invoice_number = false :=
    rfl
  rw [segStep_emit_new_unregistered (oracleOf raw) aid total i st 1
    (fallbackResult e) hs2 hf htr]
  have hrange : List.range' i 1 = [i] := by simp
  have hdata : buildInvoiceData (fallbackResult e) aid = emptyInvoiceData aid := rfl
  rw [hrange, hdata]

/-- Under an always-erroring oracle, the loop appends exactly one
singleton all-null group per remaining page. -/
theorem segLoopFuel_err (raw : Nat → Nat → Except String WindowResult) (aid : Int)
    (total : Nat) (herr : ∀ i s, ∃ e, raw i s = Except.error e) :
    ∀ (fuel i : Nat) (st : SegState), total ≤ i + fuel →
      segLoopFuel (oracleOf raw) aid total fuel i st =
        { invoice_data_list :=
            st.invoice_data_list ++
              (List.range' i (total - i)).map
                (fun p => { invoice_data := emptyInvoiceData aid, page_indices := [p] })
          session_invoices := st.session_invoices } := by
  intro fuel
  induction fuel with
  | zero =>
    intro i st h
    simp only [Nat.add_zero] at h
    have h0 : total - i = 0 := by omega
    simp [segLoopFuel, h0]
  | succ fuel ih =>
    intro i st h
    by_cases hi : i < total
    · obtain ⟨e, he⟩ := herr i 1
      simp only [segLoopFuel, hi, if_true]
      rw [segStep_err raw aid total i st e hi he]
      rw [ih (i + 1) _ (by omega)]
      simp only [List.append_assoc]
      congr 1
      have hsplit : total - i = (total - (i + 1)) + 1 := by omega
      rw [hsplit]
      rw [List.range'_succ]
      simp
    · simp only [segLoopFuel, hi, if_false]
      have h0 : total - i = 0 := by omega
      simp [h0]

/-! ## Remaining claim theorems -/

/-- C1 (amended): the final groups' page_indices are pairwise disjoint —
every page index appears at most once across all groups and no index
reaches `N` — and whenever the window scan accepts a window at every
cursor position below `N`, they form a full partition of `{0,...,N-1}`,
each index exactly once.  (Acceptance everywhere is sufficient for full
coverage, not necessary: one accepted window can span a position whose
own scan would accept nothing.) -/
theorem C1_partition_amended (oracle : Nat → Nat → WindowResult) (aid : Int)
    (total : Nat) :
    (∀ p ∈ pagesOf (runSegmentation oracle aid total), p < total) ∧
    (pagesOf (runSegmentation oracle aid total)).Nodup ∧
    ((∀ j, j < total → scanAccepts oracle total j = true) →
      (pagesOf (runSegmentation oracle aid total)).Perm (List.range total)) := by
  obtain ⟨i2, hle, hinv2⟩ := segLoopFuel_inv oracle aid total total 0 initState
    (Nat.zero_le _) StateInv_init
  refine ⟨fun p hp => Nat.lt_of_lt_of_le (hinv2.1 p hp) hle, hinv2.2.1, ?_⟩
  intro Hacc
  have hcov := segLoopFuel_cover oracle aid total Hacc total 0 initState
    (by omega) (Nat.zero_le _) StateInv_init (by simp [pagesOf, pagesOfList, initState])
  rw [List.range_eq_range']
  exact hcov

/-- C1 (witness): the amended partition theorem applied to a concrete
2-page document whose oracle accepts everywhere. -/
theorem C1_partition_amended_witness :
    (∀ j, j < 2 → scanAccepts (constOracle (PyVal.str "X")) 2 j = true) ∧
    (pagesOf (runSegmentation (constOracle (PyVal.str "X")) 7 2)).Perm (List.range 2) := by
  refine ⟨by decide, ?_⟩
  exact (C1_partition_amended (constOracle (PyVal.str "X")) 7 2).2.2 (by decide)

/-- C3 (amended): at a cursor position where the scan accepts nothing —
no tried window reports `is_complete_invoice`, and no recorded best
window reports `is_invoice_start` — the engine advances the cursor by 1
and emits no group at all: the session state is returned unchanged and
the page at `i` is left unassigned. -/
theorem C3_no_accept_skips (oracle : Nat → Nat → WindowResult) (aid : Int)
    (total i : Nat) (st : SegState)
    (h : scanAccepts oracle total i = false) :
    segStep oracle aid total i st = (i + 1, st) :=
  segStep_skip oracle aid total i st h

/-- C3 (witness): the amended skip theorem applied at cursor 0 of a
concrete 2-page document with a signal-free oracle. -/
theorem C3_no_accept_skips_witness :
    scanAccepts noSignalOracle 2 0 = false ∧
    segStep noSignalOracle 7 2 0 initState = (1, initState) :=
  ⟨by decide, C3_no_accept_skips noSignalOracle 7 2 0 initState (by decide)⟩

/-- C6 (amended): when a step accepts a window, consolidation branches
exactly on the truthiness of the extracted `invoice_number` (non-null
AND non-empty): a truthy number already in the session index merges into
the registered entry; a truthy number absent from the index is appended
standalone and registered; a falsy number (null or `""`) is appended
standalone and never registered, so it is never a merge target or
source. -/
theorem C6_consolidation_amended (oracle : Nat → Nat → WindowResult) (aid : Int)
    (total i : Nat) (st : SegState) (size : Nat) (br : WindowResult)
    (hscan : (scanWindows oracle total i).2 = Option.some (size, br))
    (hfound : ((scanWindows oracle total i).1
                || scanStartFallback (scanWindows oracle total i).2) = true) :
    (∀ idx, truthy (buildInvoiceData br aid).invoice_number = true →
       lookupSession st.session_invoices (buildInvoiceData br aid).invoice_number
         = Option.some idx →
       segStep oracle aid total i st =
         (i + size,
          { invoice_data_list :=
              mergeAt st.invoice_data_list idx (buildInvoiceData br aid)
                (List.range' i size)
            session_invoices := st.session_invoices })) ∧
    (truthy (buildInvoiceData br aid).invoice_number = true →
       lookupSession st.session_invoices (buildInvoiceData br aid).invoice_number
         = Option.none →
       segStep oracle aid total i st =
         (i + size,
          { invoice_data_list :=
              st.invoice_data_list ++
                [{ invoice_data := buildInvoiceData br aid
                   page_indices := List.range' i size }]
            session_invoices :=
              st.session_invoices ++
                [((buildInvoiceData br aid).invoice_number,
                  st.invoice_data_list.length)] })) ∧
    (truthy (buildInvoiceData br aid).invoice_number = false →
       segStep oracle aid total i st =
         (i + size,
          { invoice_data_list :=
              st.invoice_data_list ++
                [{ invoice_data := buildInvoiceData br aid
                   page_indices := List.range' i size }]
            session_invoices := st.session_invoices })) :=
  ⟨fun idx htr hl => segStep_emit_merge oracle aid total i st size br idx hscan hfound htr hl,
   fun htr hl => segStep_emit_new_registered oracle aid total i st size br hscan hfound htr hl,
   fun htr => segStep_emit_new_unregistered oracle aid total i st size br hscan hfound htr⟩

/-- C6 (witness): the amended consolidation theorem applied to a
concrete accepting step with a truthy, unregistered invoice number. -/
theorem C6_consolidation_amended_witness :
    truthy (buildInvoiceData (completeWith (PyVal.str "X")) 7).invoice_number = true ∧
    lookupSession initState.session_invoices
      (buildInvoiceData (completeWith (PyVal.str "X")) 7).invoice_number = Option.none ∧
    segStep (constOracle (PyVal.str "X")) 7 1 0 initState =
      (1,
       { invoice_data_list :=
           [{ invoice_data := buildInvoiceData (completeWith (PyVal.str "X")) 7
              page_indices := [0] }]
         session_invoices :=
           [((buildInvoiceData (completeWith (PyVal.str "X")) 7).invoice_number, 0)] }) := by
  refine ⟨by decide, by decide, ?_⟩
  have h := (C6_consolidation_amended (constOracle (PyVal.str "X")) 7 1 0 initState 1
    (completeWith (PyVal.str "X")) (by decide) (by decide)).2.1 (by decide) (by decide)
  exact h.trans (by decide)

/-- C7: if every oracle call errors, segmenting an `N`-page document
yields exactly `N` singleton groups — one per page index, in order, each
holding the all-null record — none registered in the session; and at
every cursor position the accepted result is the neutral default:
`is_invoice_start = true`, `is_complete_invoice = true`, confidence
`0.0`, reasoning `"API error: "` followed by the failure text. -/
theorem C7_all_errors (raw : Nat → Nat → Except String WindowResult) (aid : Int)
    (total : Nat) (herr : ∀ i s, ∃ e, raw i s = Except.error e) :
    (runSegmentation (oracleOf raw) aid total).invoice_data_list =
      (List.range total).map
        (fun p => { invoice_data := emptyInvoiceData aid, page_indices := [p] }) ∧
    (runSegmentation (oracleOf raw) aid total).session_invoices = [] ∧
    (∀ i, i < total → ∃ e, raw i 1 = Except.error e ∧
      scanWindows (oracleOf raw) total i = (true, Option.some (1, fallbackResult e)) ∧
      (fallbackResult e).is_invoice_start = true ∧
      (fallbackResult e).is_complete_invoice = true ∧
      (fallbackResult e).confidence = 0 ∧
      (fallbackResult e).reasoning = "API error: " ++ e) := by
  have hrun := segLoopFuel_err raw aid total herr total 0 initState (by omega)
  refine ⟨?_, ?_, ?_⟩
  · have h1 : (runSegmentation (oracleOf raw) aid total).invoice_data_list
        = initState.invoice_data_list ++
            (List.range' 0 (total - 0)).map
              (fun p => { invoice_data := emptyInvoiceData aid, page_indices := [p] }) :=
      congrArg SegState.invoice_data_list hrun
    rw [h1, List.range_eq_range']
    simp [initState]
  · exact congrArg SegState.session_invoices hrun
  · intro i hi
    obtain ⟨e, he⟩ := herr i 1
    exact ⟨e, he, scanWindows_err raw total i e hi he, rfl, rfl, rfl, rfl⟩

/-- C7 (witness): the always-erroring theorem applied to a concrete
2-page document. -/
theorem C7_all_errors_witness :
    (runSegmentation (oracleOf (fun _ _ => Except.error "boom")) 7 2).invoice_data_list =
      (List.range 2).map
        (fun p => { invoice_data := emptyInvoiceData 7, page_indices := [p] }) ∧
    (runSegmentation (oracleOf (fun _ _ => Except.error "boom")) 7 2).session_invoices
      = [] := by
  have h := C7_all_errors (fun _ _ => Except.error "boom") 7 2
    (fun _ _ => ⟨"boom", rfl⟩)
  exact ⟨h.1, h.2.1⟩

/-- C8: the segmentation loop terminates — every cursor step advances
the cursor by at least 1, and the pass needs at most `N` iterations:
giving the loop any fuel beyond `N` changes nothing. -/
theorem C8_termination (oracle : Nat → Nat → WindowResult) (aid : Int)
    (total : Nat) :
    (∀ (i : Nat) (st : SegState), i + 1 ≤ (segStep oracle aid total i st).1) ∧
    (∀ extra, segLoopFuel oracle aid total (total + extra) 0 initState
        = runSegmentation oracle aid total) := by
  constructor
  · intro i st
    exact segStep_advance oracle aid total i st
  · intro extra
    exact segLoopFuel_add oracle aid total total extra 0 initState (by omega)

/-- C10 (amended): at every point of one pass — any fuel prefix of the
loop — and hence also in the final output, no two distinct groups in the
emitted list carry the same truthy (non-null, non-empty) invoice number;
a newly emitted group whose truthy number is already registered is
folded into the existing group, never appended. -/
theorem C10_unique_truthy (oracle : Nat → Nat → WindowResult) (aid : Int)
    (total fuel j k : Nat) (ej ek : InvoiceEntry)
    (hj : (segLoopFuel oracle aid total fuel 0 initState).invoice_data_list[j]?
            = Option.some ej)
    (hk : (segLoopFuel oracle aid total fuel 0 initState).invoice_data_list[k]?
            = Option.some ek)
    (hne : j ≠ k) (htr : truthy (entryNum ej) = true) :
    entryNum ej ≠ entryNum ek := by
  obtain ⟨i2, _, hinv⟩ := segLoopFuel_inv oracle aid total fuel 0 initState
    (Nat.zero_le _) StateInv_init
  exact SessInv_unique _ hinv.2.2 j k ej ek hj hk hne htr

/-- An oracle extracting "X" on page 0 and "Y" elsewhere. -/
def oracleXY : Nat → Nat → WindowResult :=
  fun i _ => completeWith (PyVal.str (if i = 0 then "X" else "Y"))

/-- The group `oracleXY` emits for page 0. -/
def entryX : InvoiceEntry :=
  { invoice_data := buildInvoiceData (completeWith (PyVal.str "X")) 7
    page_indices := [0] }

/-- The group `oracleXY` emits for page 1. -/
def entryY : InvoiceEntry :=
  { invoice_data := buildInvoiceData (completeWith (PyVal.str "Y")) 7
    page_indices := [1] }

/-- C10 (witness): the amended uniqueness theorem applied to a concrete
pass emitting two groups with distinct truthy numbers. -/
theorem C10_unique_truthy_witness :
    (segLoopFuel oracleXY 7 2 2 0 initState).invoice_data_list[0]? = Option.some entryX ∧
    (segLoopFuel oracleXY 7 2 2 0 initState).invoice_data_list[1]? = Option.some entryY ∧
    truthy (entryNum entryX) = true ∧
    entryNum entryX ≠ entryNum entryY := by
  refine ⟨by decide, by decide, by decide, ?_⟩
  exact C10_unique_truthy oracleXY 7 2 2 0 1 entryX entryY (by decide) (by decide)
    (by decide) (by decide)

end InvoiceExtraction
